import Mathlib

/-!
# VisualNote — verification of the workspace / gesture data layer

Shallow embedding of the VisualNote repository's workspace state
(`src/workspace/workspaceState.js`), note model (`src/workspace/noteModel.js`),
link model (`src/workspace/linkModel.js`), export manager
(`src/export/exportManager.js`) and the pinch state machine of the gesture
engine (`src/gesture/gestureEngine.js`).

JavaScript numbers are modelled as exact rationals (`ℚ`); the decimal
constants of the source are written as the corresponding rationals
(1.08 = 27/25, 0.92 = 23/25, 0.3 = 3/10, 0.001 = 1/1000, 0.06 = 3/50,
0.09 = 9/100).  The gesture engine compares a Euclidean distance
(`Math.sqrt(dx*dx + dy*dy)`) against non-negative constant thresholds; the
embedding keeps squared distances and compares against squared thresholds,
which is exactly equivalent since `sqrt` is monotone on non-negative reals.
Mutation of the module-level singletons (`workspace`, `selection`,
`noteCounter`, `linkCounter`) is modelled by explicit state passing.
-/

namespace VisualNote

/-- A note card (`createNote` in noteModel.js builds these). -/
structure Note where
  id : String
  x : ℚ
  y : ℚ
  width : ℚ
  height : ℚ
  text : String
  selected : Bool
  color : String
  deriving Repr, DecidableEq

/-- A link between two notes (`createLink` in linkModel.js builds these). -/
structure Link where
  id : String
  fromId : String
  toId : String
  deriving Repr, DecidableEq

/-- The combined module-level mutable state: the `workspace` and `selection`
singletons of workspaceState.js plus the `noteCounter` of noteModel.js and
the `linkCounter` of linkModel.js. -/
structure State where
  notes : List Note
  links : List Link
  zoom : ℚ
  offsetX : ℚ
  offsetY : ℚ
  selectedNoteIds : List String
  linkSourceId : Option String
  noteCounter : Nat
  linkCounter : Nat
  deriving Repr, DecidableEq

/-- Initial state of the singletons at module load. -/
def initState : State :=
  { notes := []
    links := []
    zoom := 1
    offsetX := 0
    offsetY := 0
    selectedNoteIds := []
    linkSourceId := none
    noteCounter := 0
    linkCounter := 0 }

-- --- Zoom limits (workspaceState.js) ---

def MIN_ZOOM : ℚ := 3/10
def MAX_ZOOM : ℚ := 3

/-- `worldToScreen(wx, wy)`: `(world + offset) * zoom`. -/
def worldToScreen (wx wy : ℚ) (s : State) : ℚ × ℚ :=
  ((wx + s.offsetX) * s.zoom, (wy + s.offsetY) * s.zoom)

/-- `screenToWorld(sx, sy)`: `screen / zoom - offset`. -/
def screenToWorld (sx sy : ℚ) (s : State) : ℚ × ℚ :=
  (sx / s.zoom - s.offsetX, sy / s.zoom - s.offsetY)

/-- `applyZoom(delta, centerX, centerY)`: multiply zoom by 1.08 (delta > 0)
or 0.92, clamp to [0.3, 3.0], no-op if the clamped zoom is unchanged,
otherwise re-solve the offset so the world point under the anchor stays. -/
def applyZoom (delta centerX centerY : ℚ) (s : State) : State :=
  let oldZoom := s.zoom
  let factor : ℚ := if 0 < delta then 27/25 else 23/25
  let newZoom := max MIN_ZOOM (min MAX_ZOOM (oldZoom * factor))
  if newZoom = oldZoom then s
  else
    let worldX := centerX / oldZoom - s.offsetX
    let worldY := centerY / oldZoom - s.offsetY
    { s with
      zoom := newZoom
      offsetX := centerX / newZoom - worldX
      offsetY := centerY / newZoom - worldY }

/-- `applyZoomFactor(factor, centerX, centerY)`: like `applyZoom` but with an
arbitrary multiplicative factor; no-op when `|newZoom - oldZoom| < 0.001`. -/
def applyZoomFactor (factor centerX centerY : ℚ) (s : State) : State :=
  let oldZoom := s.zoom
  let newZoom := max MIN_ZOOM (min MAX_ZOOM (oldZoom * factor))
  if |newZoom - oldZoom| < 1/1000 then s
  else
    let worldX := centerX / oldZoom - s.offsetX
    let worldY := centerY / oldZoom - s.offsetY
    { s with
      zoom := newZoom
      offsetX := centerX / newZoom - worldX
      offsetY := centerY / newZoom - worldY }

/-- `applyPan(dxScreen, dyScreen)`. -/
def applyPan (dxScreen dyScreen : ℚ) (s : State) : State :=
  { s with
    offsetX := s.offsetX + dxScreen / s.zoom
    offsetY := s.offsetY + dyScreen / s.zoom }

-- --- Selection operations (workspaceState.js) ---

/-- `clearSelection()`: empty the id list and clear every note's flag. -/
def clearSelection (s : State) : State :=
  { s with
    selectedNoteIds := []
    notes := s.notes.map fun n => { n with selected := false } }

/-- `selectNote(noteId, addToSelection)`: optionally clear first, push the id
if absent, then resynchronize every note's `selected` flag from membership. -/
def selectNote (noteId : String) (addToSelection : Bool) (s : State) : State :=
  let s := if addToSelection then s else clearSelection s
  let s :=
    if noteId ∈ s.selectedNoteIds then s
    else { s with selectedNoteIds := s.selectedNoteIds ++ [noteId] }
  { s with
    notes := s.notes.map fun n =>
      { n with selected := decide (n.id ∈ s.selectedNoteIds) } }

/-- JavaScript `array.find(<match>)` followed by in-place mutation of the
found object: rewrite the first list element satisfying `p` with `f`. -/
def mutateFirst (p : Note → Bool) (f : Note → Note) : List Note → List Note
  | [] => []
  | n :: rest => if p n then f n :: rest else n :: mutateFirst p f rest

/-- `deselectNote(noteId)`: filter the id out of the list and clear the flag
of the (first) note found with that id. -/
def deselectNote (noteId : String) (s : State) : State :=
  { s with
    selectedNoteIds := s.selectedNoteIds.filter fun i => i ≠ noteId
    notes := mutateFirst (fun n => n.id = noteId)
      (fun n => { n with selected := false }) s.notes }

/-- `getSelectedNotes()`. -/
def getSelectedNotes (s : State) : List Note :=
  s.notes.filter fun n => n.selected

-- --- Note model (noteModel.js) ---

/-- The fixed 8-entry note color palette `NOTE_COLORS`. -/
def NOTE_COLORS : List String :=
  ["#6366f1", "#8b5cf6", "#ec4899", "#10b981",
   "#f59e0b", "#22d3ee", "#ef4444", "#3b82f6"]

/-- The id string `` `note_${n}` ``. -/
def noteIdFor (n : Nat) : String := "note_" ++ toString n

/-- `createNote(worldX, worldY, text)`: centers a 200×120 card on the given
world point, assigns `` `note_${++noteCounter}` `` and
`NOTE_COLORS[noteCounter % NOTE_COLORS.length]` (with the already
incremented counter), appends, and returns the note. -/
def createNote (worldX worldY : ℚ) (text : String) (s : State) : Note × State :=
  let counter := s.noteCounter + 1
  let width : ℚ := 200
  let height : ℚ := 120
  let note : Note :=
    { id := noteIdFor counter
      x := worldX - width / 2
      y := worldY - height / 2
      width := width
      height := height
      text := text
      selected := false
      color := NOTE_COLORS.getD (counter % NOTE_COLORS.length) "" }
  (note, { s with noteCounter := counter, notes := s.notes ++ [note] })

-- --- Link model (linkModel.js) ---

/-- `deleteLink(id)`. -/
def deleteLink (id : String) (s : State) : State :=
  { s with links := s.links.filter fun l => l.id ≠ id }

/-- `deleteLinksForNote(noteId)`: drop every link touching the note id. -/
def deleteLinksForNote (noteId : String) (s : State) : State :=
  { s with
    links := s.links.filter fun l => l.fromId ≠ noteId ∧ l.toId ≠ noteId }

/-- `getLinksForNote(noteId)`. -/
def getLinksForNote (noteId : String) (s : State) : List Link :=
  s.links.filter fun l => l.fromId = noteId ∨ l.toId = noteId

/-- `createLink(fromId, toId)`: reject self-links and direction-insensitive
duplicates (returning null), otherwise append `` `link_${++linkCounter}` ``
and return it.  The function never consults `workspace.notes`. -/
def createLink (fromId toId : String) (s : State) : Option Link × State :=
  if fromId = toId then (none, s)
  else
    let exists_ := s.links.any fun l =>
      (l.fromId = fromId ∧ l.toId = toId) ∨ (l.fromId = toId ∧ l.toId = fromId)
    if exists_ then (none, s)
    else
      let counter := s.linkCounter + 1
      let link : Link :=
        { id := "link_" ++ toString counter, fromId := fromId, toId := toId }
      (some link, { s with linkCounter := counter, links := s.links ++ [link] })

-- --- Note model, deletion and movement (noteModel.js) ---

/-- `deleteNote(id)`: cascade link deletion, then drop the note, then scrub
the id from the selection list. -/
def deleteNote (id : String) (s : State) : State :=
  let s := deleteLinksForNote id s
  { s with
    notes := s.notes.filter fun n => n.id ≠ id
    selectedNoteIds := s.selectedNoteIds.filter fun sid => sid ≠ id }

/-- `deleteSelectedNotes()`: snapshot the selected ids, delete each, then
clear the selection. -/
def deleteSelectedNotes (s : State) : State :=
  clearSelection (s.selectedNoteIds.foldl (fun st id => deleteNote id st) s)

/-- `moveNote(id, dx, dy)`: mutate the first note found with the id. -/
def moveNote (id : String) (dx dy : ℚ) (s : State) : State :=
  { s with
    notes := mutateFirst (fun n => n.id = id)
      (fun n => { n with x := n.x + dx, y := n.y + dy }) s.notes }

/-- `moveSelectedNotes(dx, dy)`: move every selected id. -/
def moveSelectedNotes (dx dy : ℚ) (s : State) : State :=
  s.selectedNoteIds.foldl (fun st id => moveNote id dx dy st) s

/-- `updateNoteText(id, newText)`: mutate the first note found with the id. -/
def updateNoteText (id : String) (newText : String) (s : State) : State :=
  { s with
    notes := mutateFirst (fun n => n.id = id)
      (fun n => { n with text := newText }) s.notes }

/-- `hitTestNote(worldX, worldY)`: walk the list back to front, return the
first note whose axis-aligned bounding box contains the point. -/
def hitTestNote (worldX worldY : ℚ) (s : State) : Option Note :=
  s.notes.reverse.find? fun n =>
    n.x ≤ worldX ∧ worldX ≤ n.x + n.width ∧ n.y ≤ worldY ∧ worldY ≤ n.y + n.height

-- --- Export manager (exportManager.js) ---

/-- The flattened note record of the exported JSON document: exactly the
fields id, x, y, width, height, text, color — no `selected` field. -/
structure NoteRecord where
  id : String
  x : ℚ
  y : ℚ
  width : ℚ
  height : ℚ
  text : String
  color : String
  deriving Repr, DecidableEq

/-- The exported link record: exactly id, from, to. -/
structure LinkRecord where
  id : String
  fromId : String
  toId : String
  deriving Repr, DecidableEq

/-- The exported workspace record: current zoom and offsets. -/
structure WorkspaceRecord where
  zoom : ℚ
  offsetX : ℚ
  offsetY : ℚ
  deriving Repr, DecidableEq

/-- The exported project document (`version`, `timestamp`, `workspace`,
`notes`, `links`). -/
structure Project where
  version : String
  timestamp : String
  workspace : WorkspaceRecord
  notes : List NoteRecord
  links : List LinkRecord
  deriving Repr, DecidableEq

def PROJECT_VERSION : String := "1.0"

/-- The per-note flattening performed by `exportProjectJSON`. -/
def noteRecordOf (n : Note) : NoteRecord :=
  { id := n.id, x := n.x, y := n.y, width := n.width, height := n.height
    text := n.text, color := n.color }

/-- The per-link flattening performed by `exportProjectJSON`. -/
def linkRecordOf (l : Link) : LinkRecord :=
  { id := l.id, fromId := l.fromId, toId := l.toId }

/-- `exportProjectJSON()`: build the project document and return `true`.
`new Date().toISOString()` is passed in as `timestamp`; the download side
effect is outside the data model. -/
def exportProjectJSON (timestamp : String) (s : State) : Bool × Project :=
  let project : Project :=
    { version := PROJECT_VERSION
      timestamp := timestamp
      workspace := { zoom := s.zoom, offsetX := s.offsetX, offsetY := s.offsetY }
      notes := s.notes.map noteRecordOf
      links := s.links.map linkRecordOf }
  (true, project)

-- --- Gesture engine (gestureEngine.js) ---

/-- A hand landmark's consumed coordinates (the source reads only `.x` and
`.y`; the unused `z` is omitted). -/
structure Landmark where
  x : ℚ
  y : ℚ
  deriving Repr, DecidableEq

/-- The per-hand pose vocabulary of `gestureMode`. -/
inductive Gesture where
  | none
  | point
  | pinch
  | fist
  | open_
  deriving Repr, DecidableEq

/-- Per-hand gesture state (`createHandState()`). -/
structure HandState where
  detected : Bool
  landmarks : Option (List Landmark)
  cursor : ℚ × ℚ
  smoothCursor : ℚ × ℚ
  prevSmoothCursor : ℚ × ℚ
  isPinching : Bool
  pinchStartTime : ℚ
  pinchConfirmed : Bool
  pinchJustConfirmed : Bool
  pinchJustReleased : Bool
  gestureMode : Gesture
  prevGestureMode : Gesture
  gestureCandidate : Gesture
  gestureCandidateFrames : Nat
  deriving Repr, DecidableEq

/-- `createHandState()`: the neutral initial per-hand state. -/
def createHandState : HandState :=
  { detected := false
    landmarks := none
    cursor := (0, 0)
    smoothCursor := (0, 0)
    prevSmoothCursor := (0, 0)
    isPinching := false
    pinchStartTime := 0
    pinchConfirmed := false
    pinchJustConfirmed := false
    pinchJustReleased := false
    gestureMode := Gesture.none
    prevGestureMode := Gesture.none
    gestureCandidate := Gesture.none
    gestureCandidateFrames := 0 }

def PINCH_THRESHOLD : ℚ := 3/50
def PINCH_DEBOUNCE_MS : ℚ := 120
def RELEASE_THRESHOLD : ℚ := 9/100
def SMOOTHING_FACTOR : ℚ := 2/5
def GESTURE_CONFIRM_FRAMES : Nat := 3

def THUMB_TIP : Nat := 4
def INDEX_MCP : Nat := 5
def INDEX_TIP : Nat := 8
def MIDDLE_MCP : Nat := 9
def MIDDLE_TIP : Nat := 12
def RING_MCP : Nat := 13
def RING_TIP : Nat := 16
def PINKY_MCP : Nat := 17
def PINKY_TIP : Nat := 20

/-- Squared Euclidean distance between two landmarks.  The source computes
`Math.sqrt(dx**2 + dy**2)` and only ever compares it against non-negative
constants, so the embedding compares the square against the squared
constant. -/
def distSq (a b : Landmark) : ℚ :=
  (a.x - b.x) ^ 2 + (a.y - b.y) ^ 2

def isFingerExtended (lm : List Landmark) (tipIdx mcpIdx : Nat) : Bool :=
  (lm.getD tipIdx ⟨0, 0⟩).y < (lm.getD mcpIdx ⟨0, 0⟩).y - 1/50

def isFingerCurled (lm : List Landmark) (tipIdx mcpIdx : Nat) : Bool :=
  (lm.getD tipIdx ⟨0, 0⟩).y > (lm.getD mcpIdx ⟨0, 0⟩).y + 1/100

/-- `smooth(current, previous, factor)`. -/
def smooth (current previous factor : ℚ) : ℚ :=
  previous + (current - previous) * factor

/-- `classifyGesture(lm)`: pinch (thumb–index distance below 0.06) first,
then fist, open, point, default-point, none. -/
def classifyGesture (lm : List Landmark) : Gesture :=
  let thumbIndexDistSq := distSq (lm.getD THUMB_TIP ⟨0, 0⟩) (lm.getD INDEX_TIP ⟨0, 0⟩)
  if thumbIndexDistSq < PINCH_THRESHOLD ^ 2 then Gesture.pinch
  else
    let indexExtended := isFingerExtended lm INDEX_TIP INDEX_MCP
    let middleExtended := isFingerExtended lm MIDDLE_TIP MIDDLE_MCP
    let ringCurled := isFingerCurled lm RING_TIP RING_MCP
    let pinkyCurled := isFingerCurled lm PINKY_TIP PINKY_MCP
    let indexCurled := isFingerCurled lm INDEX_TIP INDEX_MCP
    let middleCurled := isFingerCurled lm MIDDLE_TIP MIDDLE_MCP
    let ringExtended := isFingerExtended lm RING_TIP RING_MCP
    let pinkyExtended := isFingerExtended lm PINKY_TIP PINKY_MCP
    if indexCurled ∧ middleCurled ∧ ringCurled ∧ pinkyCurled then Gesture.fist
    else if indexExtended ∧ middleExtended ∧ ringExtended ∧ pinkyExtended then Gesture.open_
    else if indexExtended ∧ middleCurled ∧ ringCurled ∧ pinkyCurled then Gesture.point
    else if indexExtended then Gesture.point
    else Gesture.none

/-- `resetOneHand(handState)`: clears detection, landmarks, pinch flags and
gesture bookkeeping — and nothing else (the three cursor points and
`pinchStartTime` are left untouched by the source). -/
def resetOneHand (s : HandState) : HandState :=
  { s with
    detected := false
    landmarks := none
    isPinching := false
    pinchConfirmed := false
    pinchJustConfirmed := false
    pinchJustReleased := false
    gestureMode := Gesture.none
    prevGestureMode := Gesture.none
    gestureCandidate := Gesture.none
    gestureCandidateFrames := 0 }

/-- The pinch state machine block of `processOneHand` (its final section),
operating on the squared thumb–index distance; `now` is the value of
`performance.now()` during the frame. -/
def pinchStep (now thumbIndexDistSq : ℚ) (s : HandState) : HandState :=
  let s := { s with pinchJustConfirmed := false, pinchJustReleased := false }
  let wasPinching := s.isPinching
  let s :=
    if wasPinching = false ∧ thumbIndexDistSq < PINCH_THRESHOLD ^ 2 then
      { s with isPinching := true, pinchStartTime := now, pinchConfirmed := false }
    else if wasPinching = true ∧ thumbIndexDistSq > RELEASE_THRESHOLD ^ 2 then
      { s with
        isPinching := false
        pinchJustReleased := s.pinchConfirmed
        pinchConfirmed := false
        pinchStartTime := 0 }
    else s
  if s.isPinching = true ∧ s.pinchConfirmed = false then
    if now - s.pinchStartTime ≥ PINCH_DEBOUNCE_MS then
      { s with pinchConfirmed := true, pinchJustConfirmed := true }
    else s
  else s

/-- `processOneHand(handState, landmarks, canvasWidth, canvasHeight)`:
reset when no landmark list or fewer than 21 landmarks are supplied;
otherwise update cursor, smoothing, gesture debouncing and the pinch
machine.  `now` is the frame's `performance.now()` reading. -/
def processOneHand (landmarks : Option (List Landmark))
    (canvasWidth canvasHeight now : ℚ) (s : HandState) : HandState :=
  match landmarks with
  | Option.none => resetOneHand s
  | Option.some lm =>
    if lm.length < 21 then resetOneHand s
    else
      let s := { s with detected := true, landmarks := some lm }
      let indexTip := lm.getD INDEX_TIP ⟨0, 0⟩
      let rawX := (1 - indexTip.x) * canvasWidth
      let rawY := indexTip.y * canvasHeight
      let s := { s with prevSmoothCursor := s.smoothCursor }
      let s := { s with cursor := (rawX, rawY) }
      let s := { s with
        smoothCursor :=
          (smooth rawX s.smoothCursor.1 SMOOTHING_FACTOR,
           smooth rawY s.smoothCursor.2 SMOOTHING_FACTOR) }
      let rawGesture := classifyGesture lm
      let s :=
        if rawGesture = s.gestureCandidate then
          { s with gestureCandidateFrames := s.gestureCandidateFrames + 1 }
        else
          { s with gestureCandidate := rawGesture, gestureCandidateFrames := 1 }
      let s := { s with prevGestureMode := s.gestureMode }
      let s :=
        if s.gestureCandidateFrames ≥ GESTURE_CONFIRM_FRAMES then
          { s with gestureMode := s.gestureCandidate }
        else s
      pinchStep now (distSq (lm.getD THUMB_TIP ⟨0, 0⟩) (lm.getD INDEX_TIP ⟨0, 0⟩)) s

/-- Iterated pinch machine: feed frame `i` the time `t i` and the squared
thumb–index distance `d2 i`. -/
def pinchRun (s0 : HandState) (t d2 : ℕ → ℚ) : ℕ → HandState
  | 0 => s0
  | i + 1 => pinchStep (t i) (d2 i) (pinchRun s0 t d2 i)

-- ============================================================
-- Theorems
-- ============================================================

/-- Round trip: mapping a screen point to world and back is the identity
when the zoom is nonzero. -/
lemma worldToScreen_screenToWorld (s : State) (cx cy : ℚ) (hz : s.zoom ≠ 0) :
    worldToScreen (screenToWorld cx cy s).1 (screenToWorld cx cy s).2 s
      = (cx, cy) := by
  simp only [worldToScreen, screenToWorld, Prod.mk.injEq]
  constructor <;> · rw [sub_add_cancel, div_mul_cancel₀ _ hz]

/-- The clamped zoom is at least `MIN_ZOOM`, hence nonzero. -/
lemma clamped_zoom_pos (x : ℚ) : 0 < max MIN_ZOOM (min MAX_ZOOM x) :=
  lt_of_lt_of_le (by norm_num [MIN_ZOOM]) (le_max_left _ _)

/-- The shared offset re-solve of `applyZoom`/`applyZoomFactor` keeps the
anchor's world point under the anchor. -/
lemma anchor_arith (z nz off c : ℚ) (hnz : nz ≠ 0) :
    (c / z - off + (c / nz - (c / z - off))) * nz = c := by
  rw [add_sub_cancel, div_mul_cancel₀ _ hnz]

/-- The re-zoomed state of the active branch of `applyZoom` and
`applyZoomFactor` maps the old anchor world point back to the anchor. -/
lemma anchor_rezoom (s : State) (cx cy nz : ℚ) (hnz : nz ≠ 0) :
    worldToScreen (screenToWorld cx cy s).1 (screenToWorld cx cy s).2
      { s with
        zoom := nz
        offsetX := cx / nz - (cx / s.zoom - s.offsetX)
        offsetY := cy / nz - (cy / s.zoom - s.offsetY) } = (cx, cy) := by
  simp only [worldToScreen, screenToWorld, Prod.mk.injEq]
  exact ⟨anchor_arith _ _ _ _ hnz, anchor_arith _ _ _ _ hnz⟩

/-- C1: for any workspace with zoom in [0.3, 3.0] and any screen anchor
`(cx, cy)`, the world point that `worldToScreen` sent to `(cx, cy)` before
the call is still sent exactly to `(cx, cy)` after `applyZoom(delta, cx, cy)`
for every direction `delta`, and after `applyZoomFactor(factor, cx, cy)` for
every positive `factor`. -/
theorem zoom_anchor_invariance (s : State) (cx cy : ℚ)
    (hlo : MIN_ZOOM ≤ s.zoom) (hhi : s.zoom ≤ MAX_ZOOM) :
    (∀ delta : ℚ,
      worldToScreen (screenToWorld cx cy s).1 (screenToWorld cx cy s).2
        (applyZoom delta cx cy s) = (cx, cy)) ∧
    (∀ factor : ℚ, 0 < factor →
      worldToScreen (screenToWorld cx cy s).1 (screenToWorld cx cy s).2
        (applyZoomFactor factor cx cy s) = (cx, cy)) := by
  have hz : s.zoom ≠ 0 :=
    ne_of_gt (lt_of_lt_of_le (by norm_num [MIN_ZOOM]) hlo)
  constructor
  · intro delta
    simp only [applyZoom]
    split_ifs
    · exact worldToScreen_screenToWorld s cx cy hz
    · exact anchor_rezoom s cx cy _
        (ne_of_gt (clamped_zoom_pos (s.zoom * (27/25))))
    · exact worldToScreen_screenToWorld s cx cy hz
    · exact anchor_rezoom s cx cy _
        (ne_of_gt (clamped_zoom_pos (s.zoom * (23/25))))
  · intro factor _
    simp only [applyZoomFactor]
    split_ifs
    · exact worldToScreen_screenToWorld s cx cy hz
    · exact anchor_rezoom s cx cy _
        (ne_of_gt (clamped_zoom_pos (s.zoom * factor)))

/-- C1 witness: the anchor invariance evaluated at the initial workspace,
anchor (10, 20), a zoom-in step and factor 2. -/
theorem zoom_anchor_invariance_witness :
    worldToScreen (screenToWorld 10 20 initState).1
        (screenToWorld 10 20 initState).2 (applyZoom 1 10 20 initState)
      = (10, 20) ∧
    worldToScreen (screenToWorld 10 20 initState).1
        (screenToWorld 10 20 initState).2 (applyZoomFactor 2 10 20 initState)
      = (10, 20) :=
  ⟨(zoom_anchor_invariance initState 10 20 (by norm_num [initState, MIN_ZOOM])
      (by norm_num [initState, MAX_ZOOM])).1 1,
   (zoom_anchor_invariance initState 10 20 (by norm_num [initState, MIN_ZOOM])
      (by norm_num [initState, MAX_ZOOM])).2 2 (by norm_num)⟩

-- --- C2: zoom clamping and saturation ---

/-- One call of either zoom entry point, for reasoning about arbitrary call
sequences. -/
inductive ZoomOp where
  | step (delta centerX centerY : ℚ)
  | factor (f centerX centerY : ℚ)

/-- Apply one `ZoomOp`. -/
def applyZoomOp : ZoomOp → State → State
  | ZoomOp.step d cx cy, s => applyZoom d cx cy s
  | ZoomOp.factor f cx cy, s => applyZoomFactor f cx cy s

/-- Run a finite sequence of zoom calls. -/
def runZoomOps (ops : List ZoomOp) (s : State) : State :=
  ops.foldl (fun st op => applyZoomOp op st) s

/-- Repeated `applyZoom` calls with per-call deltas `d i` and anchors `c i`. -/
def zoomInSeq (c : ℕ → ℚ × ℚ) (d : ℕ → ℚ) (s : State) : ℕ → State
  | 0 => s
  | k + 1 => applyZoom (d k) (c k).1 (c k).2 (zoomInSeq c d s k)

/-- The zoom after `applyZoom` is always the clamped product (both the no-op
and the active branch agree on this). -/
lemma applyZoom_zoom (delta cx cy : ℚ) (s : State) :
    (applyZoom delta cx cy s).zoom
      = max MIN_ZOOM (min MAX_ZOOM (s.zoom * if 0 < delta then 27/25 else 23/25)) := by
  simp only [applyZoom]
  split_ifs with h1 h2 h3
  · exact h2.symm
  · rfl
  · exact h3.symm
  · rfl

/-- `applyZoom` keeps the zoom inside `[MIN_ZOOM, MAX_ZOOM]`. -/
lemma applyZoom_zoom_mem (delta cx cy : ℚ) (s : State)
    (h : MIN_ZOOM ≤ s.zoom ∧ s.zoom ≤ MAX_ZOOM) :
    MIN_ZOOM ≤ (applyZoom delta cx cy s).zoom
      ∧ (applyZoom delta cx cy s).zoom ≤ MAX_ZOOM := by
  rw [applyZoom_zoom]
  exact ⟨le_max_left _ _,
    max_le (by norm_num [MIN_ZOOM, MAX_ZOOM]) (min_le_left _ _)⟩

/-- `applyZoomFactor` keeps the zoom inside `[MIN_ZOOM, MAX_ZOOM]`. -/
lemma applyZoomFactor_zoom_mem (f cx cy : ℚ) (s : State)
    (h : MIN_ZOOM ≤ s.zoom ∧ s.zoom ≤ MAX_ZOOM) :
    MIN_ZOOM ≤ (applyZoomFactor f cx cy s).zoom
      ∧ (applyZoomFactor f cx cy s).zoom ≤ MAX_ZOOM := by
  simp only [applyZoomFactor]
  split_ifs
  · exact h
  · exact ⟨le_max_left _ _,
      max_le (by norm_num [MIN_ZOOM, MAX_ZOOM]) (min_le_left _ _)⟩

/-- A run of zoom calls keeps the zoom inside `[MIN_ZOOM, MAX_ZOOM]`. -/
lemma runZoomOps_zoom_mem (ops : List ZoomOp) (s : State)
    (h : MIN_ZOOM ≤ s.zoom ∧ s.zoom ≤ MAX_ZOOM) :
    MIN_ZOOM ≤ (runZoomOps ops s).zoom ∧ (runZoomOps ops s).zoom ≤ MAX_ZOOM := by
  induction ops generalizing s with
  | nil => exact h
  | cons op ops ih =>
    cases op with
    | step d cx cy => exact ih _ (applyZoom_zoom_mem d cx cy s h)
    | factor f cx cy => exact ih _ (applyZoomFactor_zoom_mem f cx cy s h)

/-- The zoom-in update acting on `min 3 x` for `x ≥ 1`. -/
lemma zoomin_clamp_step (x : ℚ) (hx : 1 ≤ x) :
    max MIN_ZOOM (min MAX_ZOOM (min 3 x * (27/25))) = min 3 (x * (27/25)) := by
  rw [MIN_ZOOM, MAX_ZOOM]
  rcases le_total 3 x with h | h
  · rw [min_eq_left h]
    rw [min_eq_left (by linarith), min_eq_left (by linarith),
      max_eq_right (by norm_num)]
  · rw [min_eq_right h]
    rw [max_eq_right (le_min (by norm_num) (by nlinarith))]

/-- Along a sequence of zoom-in calls from zoom 1, the zoom after `k` calls
is exactly `min 3 ((27/25)^k)`. -/
lemma zoomInSeq_zoom (c : ℕ → ℚ × ℚ) (d : ℕ → ℚ) (s : State)
    (hd : ∀ i, 0 < d i) (h1 : s.zoom = 1) (k : ℕ) :
    (zoomInSeq c d s k).zoom = min 3 ((27/25 : ℚ) ^ k) := by
  induction k with
  | zero => simpa [zoomInSeq] using h1
  | succ k ih =>
    have hx : (1 : ℚ) ≤ (27/25 : ℚ) ^ k :=
      one_le_pow₀ (by norm_num)
    rw [zoomInSeq, applyZoom_zoom, if_pos (hd k), ih, zoomin_clamp_step _ hx,
      pow_succ]

/-- At zoom exactly 3, a further zoom-in call is the identity on the whole
workspace (the early return fires). -/
lemma applyZoom_saturated (s : State) (h3 : s.zoom = 3) (delta cx cy : ℚ)
    (hd : 0 < delta) : applyZoom delta cx cy s = s := by
  have hcond : max MIN_ZOOM (min MAX_ZOOM (s.zoom * if 0 < delta then (27:ℚ)/25 else 23/25))
      = s.zoom := by
    rw [if_pos hd, h3, MIN_ZOOM, MAX_ZOOM]
    rw [min_eq_left (by norm_num), max_eq_right (by norm_num)]
  simp only [applyZoom]
  rw [if_pos hcond]

/-- C2: (a) starting from any zoom in [0.3, 3.0], any finite sequence of
`applyZoom`/`applyZoomFactor` calls leaves the zoom in [0.3, 3.0]; (b) from
zoom 1.0, fifteen zoom-in calls (any positive deltas, any anchors) make the
zoom exactly 3.0, and any further zoom-in call leaves the workspace
unchanged. -/
theorem zoom_clamping_and_saturation :
    (∀ (ops : List ZoomOp) (s : State),
        MIN_ZOOM ≤ s.zoom → s.zoom ≤ MAX_ZOOM →
        MIN_ZOOM ≤ (runZoomOps ops s).zoom
          ∧ (runZoomOps ops s).zoom ≤ MAX_ZOOM) ∧
    (∀ (c : ℕ → ℚ × ℚ) (d : ℕ → ℚ) (s : State),
        (∀ i, 0 < d i) → s.zoom = 1 →
        (zoomInSeq c d s 15).zoom = 3 ∧
        ∀ (delta cx cy : ℚ), 0 < delta →
          applyZoom delta cx cy (zoomInSeq c d s 15) = zoomInSeq c d s 15) := by
  constructor
  · exact fun ops s hlo hhi => runZoomOps_zoom_mem ops s ⟨hlo, hhi⟩
  · intro c d s hd h1
    have hz : (zoomInSeq c d s 15).zoom = 3 := by
      rw [zoomInSeq_zoom c d s hd h1 15, min_eq_left (by norm_num)]
    exact ⟨hz, fun delta cx cy hdel => applyZoom_saturated _ hz delta cx cy hdel⟩

/-- C2 witness: a concrete two-call sequence from the initial workspace stays
in range, and fifteen concrete zoom-in steps saturate at exactly 3. -/
theorem zoom_clamping_and_saturation_witness :
    (MIN_ZOOM ≤ (runZoomOps [ZoomOp.step 1 0 0, ZoomOp.factor (1/2) 5 5] initState).zoom
      ∧ (runZoomOps [ZoomOp.step 1 0 0, ZoomOp.factor (1/2) 5 5] initState).zoom ≤ MAX_ZOOM) ∧
    (zoomInSeq (fun _ => (0, 0)) (fun _ => 1) initState 15).zoom = 3 := by
  refine ⟨zoom_clamping_and_saturation.1 _ initState (by norm_num [initState, MIN_ZOOM])
    (by norm_num [initState, MAX_ZOOM]), ?_⟩
  exact (zoom_clamping_and_saturation.2 (fun _ => (0, 0)) (fun _ => 1) initState
    (fun _ => by norm_num) rfl).1

-- --- C3 / C10: link creation ---

/-- Direction-insensitive "a link connecting the unordered pair {a, b}"
(the duplicate test of `createLink`). -/
def connectsPair (a b : String) (l : Link) : Bool :=
  decide ((l.fromId = a ∧ l.toId = b) ∨ (l.fromId = b ∧ l.toId = a))

lemma any_connects_iff (links : List Link) (a b : String) :
    links.any (connectsPair a b) = true ↔
      ∃ l ∈ links, (l.fromId = a ∧ l.toId = b) ∨ (l.fromId = b ∧ l.toId = a) := by
  simp [connectsPair, List.any_eq_true]

/-- `createLink`'s duplicate test is `List.any (connectsPair a b)`. -/
lemma createLink_def (a b : String) (s : State) :
    createLink a b s =
      if a = b then (none, s)
      else if links_exists : s.links.any (connectsPair a b) = true then (none, s)
      else
        (some ⟨"link_" ++ toString (s.linkCounter + 1), a, b⟩,
         { s with
           linkCounter := s.linkCounter + 1
           links := s.links ++ [⟨"link_" ++ toString (s.linkCounter + 1), a, b⟩] }) :=
  rfl

/-- The pair test is direction-insensitive. -/
lemma connectsPair_comm (a b : String) (l : Link) :
    connectsPair b a l = connectsPair a b l := by
  simp only [connectsPair]
  exact decide_eq_decide.mpr or_comm

/-- C3: `createLink(a, a)` returns null and changes nothing; once a link
between `a` and `b` exists in either direction, `createLink(a, b)` and
`createLink(b, a)` both return null and change nothing; and from a state
with no link between distinct `a` and `b`, `createLink(a, b)` followed by
`createLink(b, a)` leaves exactly one link connecting the unordered pair
{a, b}. -/
theorem createLink_self_and_dedup :
    (∀ (s : State) (a : String),
      (createLink a a s).1 = none ∧ (createLink a a s).2 = s) ∧
    (∀ (s : State) (a b : String), a ≠ b →
      (∃ l ∈ s.links, (l.fromId = a ∧ l.toId = b) ∨ (l.fromId = b ∧ l.toId = a)) →
      ((createLink a b s).1 = none ∧ (createLink a b s).2 = s) ∧
      ((createLink b a s).1 = none ∧ (createLink b a s).2 = s)) ∧
    (∀ (s : State) (a b : String), a ≠ b →
      (¬ ∃ l ∈ s.links, (l.fromId = a ∧ l.toId = b) ∨ (l.fromId = b ∧ l.toId = a)) →
      ((createLink b a (createLink a b s).2).2.links.countP (connectsPair a b)) = 1) := by
  refine ⟨fun s a => by simp [createLink_def], ?_, ?_⟩
  · intro s a b hab hex
    have h1 : s.links.any (connectsPair a b) = true := (any_connects_iff _ _ _).mpr hex
    have h2 : s.links.any (connectsPair b a) = true := by
      rw [List.any_eq_true] at h1 ⊢
      obtain ⟨l, hl, hc⟩ := h1
      exact ⟨l, hl, by rwa [connectsPair_comm]⟩
    rw [createLink_def, createLink_def, if_neg hab, if_neg (Ne.symm hab),
      dif_pos h1, dif_pos h2]
    exact ⟨⟨rfl, rfl⟩, rfl, rfl⟩
  · intro s a b hab hnex
    have h1 : ¬ s.links.any (connectsPair a b) = true := by
      rw [any_connects_iff]; exact hnex
    have hcount0 : s.links.countP (connectsPair a b) = 0 := by
      rw [List.countP_eq_zero]
      intro l hl hc
      exact h1 ((any_connects_iff _ _ _).mpr ⟨l, hl, by simpa [connectsPair] using hc⟩)
    have hnew : connectsPair a b ⟨"link_" ++ toString (s.linkCounter + 1), a, b⟩ = true := by
      simp [connectsPair]
    have e1 : (createLink a b s).2 =
        { s with
          linkCounter := s.linkCounter + 1
          links := s.links ++ [⟨"link_" ++ toString (s.linkCounter + 1), a, b⟩] } := by
      rw [createLink_def a b s, if_neg hab, dif_neg h1]
    have h2 : ((s.links ++ [⟨"link_" ++ toString (s.linkCounter + 1), a, b⟩] : List Link).any
        (connectsPair b a)) = true := by
      rw [List.any_eq_true]
      exact ⟨⟨"link_" ++ toString (s.linkCounter + 1), a, b⟩, by simp,
        by rw [connectsPair_comm]; exact hnew⟩
    rw [e1, createLink_def b a, if_neg (Ne.symm hab)]
    rw [dif_pos h2]
    simp [List.countP_append, hcount0, List.countP_cons, hnew]

/-- C3 witness: the dedup behaviour evaluated on a concrete workspace with
one existing link and on the two-call sequence from the empty workspace. -/
theorem createLink_self_and_dedup_witness :
    ((createLink "note_1" "note_1" initState).1 = none
      ∧ (createLink "note_1" "note_1" initState).2 = initState) ∧
    ((createLink "note_2" "note_1"
        (createLink "note_1" "note_2" initState).2).2.links.countP
          (connectsPair "note_1" "note_2")) = 1 :=
  ⟨createLink_self_and_dedup.1 initState "note_1",
   createLink_self_and_dedup.2.2 initState "note_1" "note_2" (by decide)
     (by simp [initState])⟩

/-- C10: `createLink` performs no existence check on its endpoints — the
result is null exactly when the ids are equal or a direction-insensitive
duplicate exists; the notes list is never consulted (replacing it changes
nothing about the result); and for distinct, non-duplicated ids a link is
appended and returned even when no note carries either id. -/
theorem createLink_allows_dangling :
    (∀ (s : State) (a b : String),
      (createLink a b s).1 = none ↔
        (a = b ∨ ∃ l ∈ s.links,
          (l.fromId = a ∧ l.toId = b) ∨ (l.fromId = b ∧ l.toId = a))) ∧
    (∀ (s : State) (a b : String) (notes' : List Note),
      createLink a b { s with notes := notes' } =
        ((createLink a b s).1, { (createLink a b s).2 with notes := notes' })) ∧
    (∀ (s : State) (a b : String), a ≠ b →
      (¬ ∃ l ∈ s.links, (l.fromId = a ∧ l.toId = b) ∨ (l.fromId = b ∧ l.toId = a)) →
      (∀ n ∈ s.notes, n.id ≠ a ∧ n.id ≠ b) →
      ∃ lk, (createLink a b s).1 = some lk ∧ lk.fromId = a ∧ lk.toId = b ∧
        (createLink a b s).2.links = s.links ++ [lk] ∧
        (createLink a b s).2.notes = s.notes) := by
  refine ⟨?_, ?_, ?_⟩
  · intro s a b
    rw [createLink_def]
    split_ifs with h1 h2
    · simp [h1]
    · simp only [true_iff]
      exact Or.inr ((any_connects_iff _ _ _).mp h2)
    · simp only [reduceCtorEq, false_iff]
      rintro (h | hex)
      · exact h1 h
      · exact h2 ((any_connects_iff _ _ _).mpr hex)
  · intro s a b notes'
    rw [createLink_def, createLink_def]
    split_ifs <;> rfl
  · intro s a b hab hnex _hnotes
    have h1 : ¬ s.links.any (connectsPair a b) = true := by
      rw [any_connects_iff]; exact hnex
    rw [createLink_def, if_neg hab, dif_neg h1]
    exact ⟨_, rfl, rfl, rfl, rfl, rfl⟩

/-- C10 witness: on the empty workspace (no notes at all), linking two
never-created ids succeeds and appends a dangling link. -/
theorem createLink_allows_dangling_witness :
    ∃ lk, (createLink "ghost_a" "ghost_b" initState).1 = some lk ∧
      lk.fromId = "ghost_a" ∧ lk.toId = "ghost_b" ∧
      (createLink "ghost_a" "ghost_b" initState).2.links = initState.links ++ [lk] ∧
      (createLink "ghost_a" "ghost_b" initState).2.notes = initState.notes :=
  createLink_allows_dangling.2.2 initState "ghost_a" "ghost_b" (by decide)
    (by simp [initState]) (by simp [initState])

-- --- C4: cascading delete ---

/-- C4: deleting note A removes A from the note list, removes every link
touching A's id, scrubs A's id from the selection, keeps B (a distinct
note) with all its fields unchanged, and leaves B with zero links when
every link touching B also touched A. -/
theorem deleteNote_cascades (s : State) (A B : Note)
    (hA : A ∈ s.notes) (hB : B ∈ s.notes) (hAB : A.id ≠ B.id)
    (hlink : ∃ l ∈ s.links,
      (l.fromId = A.id ∧ l.toId = B.id) ∨ (l.fromId = B.id ∧ l.toId = A.id)) :
    (∀ n ∈ (deleteNote A.id s).notes, n.id ≠ A.id) ∧
    B ∈ (deleteNote A.id s).notes ∧
    (∀ l ∈ (deleteNote A.id s).links, l.fromId ≠ A.id ∧ l.toId ≠ A.id) ∧
    A.id ∉ (deleteNote A.id s).selectedNoteIds ∧
    ((∀ l ∈ s.links, (l.fromId = B.id ∨ l.toId = B.id) →
        (l.fromId = A.id ∨ l.toId = A.id)) →
      getLinksForNote B.id (deleteNote A.id s) = []) := by
  refine ⟨?_, ?_, ?_, ?_, ?_⟩
  · intro n hn
    simp only [deleteNote, deleteLinksForNote, List.mem_filter,
      decide_eq_true_eq] at hn
    exact hn.2
  · simp only [deleteNote, deleteLinksForNote, List.mem_filter,
      decide_eq_true_eq]
    exact ⟨hB, Ne.symm hAB⟩
  · intro l hl
    simp only [deleteNote, deleteLinksForNote, List.mem_filter,
      decide_eq_true_eq] at hl
    exact hl.2
  · simp only [deleteNote, deleteLinksForNote, List.mem_filter,
      decide_eq_true_eq]
    intro h
    exact h.2 rfl
  · intro honly
    simp only [getLinksForNote, deleteNote, deleteLinksForNote]
    rw [List.filter_eq_nil_iff]
    intro l hl
    simp only [List.mem_filter, decide_eq_true_eq] at hl
    simp only [decide_eq_true_eq]
    intro htouch
    rcases honly l hl.1 htouch with h | h
    · exact hl.2.1 h
    · exact hl.2.2 h

/-- A concrete workspace with two linked notes for witnesses. -/
def noteA : Note :=
  { id := "note_1", x := 0, y := 0, width := 200, height := 120
    text := "A", selected := true, color := "#8b5cf6" }

/-- Second concrete note. -/
def noteB : Note :=
  { id := "note_2", x := 300, y := 0, width := 200, height := 120
    text := "B", selected := false, color := "#ec4899" }

/-- Concrete workspace with notes A, B, one link between them, and A
selected. -/
def pairState : State :=
  { initState with
    notes := [noteA, noteB]
    links := [{ id := "link_1", fromId := "note_1", toId := "note_2" }]
    selectedNoteIds := ["note_1"]
    noteCounter := 2
    linkCounter := 1 }

/-- C4 witness: the cascading delete evaluated on the concrete two-note
workspace. -/
theorem deleteNote_cascades_witness :
    (∀ n ∈ (deleteNote noteA.id pairState).notes, n.id ≠ noteA.id) ∧
    noteB ∈ (deleteNote noteA.id pairState).notes ∧
    (∀ l ∈ (deleteNote noteA.id pairState).links,
      l.fromId ≠ noteA.id ∧ l.toId ≠ noteA.id) ∧
    noteA.id ∉ (deleteNote noteA.id pairState).selectedNoteIds ∧
    ((∀ l ∈ pairState.links, (l.fromId = noteB.id ∨ l.toId = noteB.id) →
        (l.fromId = noteA.id ∨ l.toId = noteA.id)) →
      getLinksForNote noteB.id (deleteNote noteA.id pairState) = []) :=
  deleteNote_cascades pairState noteA noteB (by decide) (by decide) (by decide)
    (by decide)

-- --- C9: note ids and the color cycle ---

/-- A sequence of `createNote` calls with per-call positions `xs i, ys i`
and texts `ts i`. -/
def createNoteSeq (xs ys : ℕ → ℚ) (ts : ℕ → String) (s : State) : ℕ → State
  | 0 => s
  | k + 1 =>
    (createNote (xs k) (ys k) (ts k) (createNoteSeq xs ys ts s k)).2

/-- The note built by `createNote` depends only on the inputs and the
counter. -/
lemma createNote_fst (x y : ℚ) (t : String) (s s' : State)
    (h : s.noteCounter = s'.noteCounter) :
    (createNote x y t s).1 = (createNote x y t s').1 := by
  simp [createNote, h]

lemma createNote_snd_notes (x y : ℚ) (t : String) (st : State) :
    (createNote x y t st).2.notes = st.notes ++ [(createNote x y t st).1] := rfl

lemma createNote_snd_noteCounter (x y : ℚ) (t : String) (st : State) :
    (createNote x y t st).2.noteCounter = st.noteCounter + 1 := rfl

lemma createNote_fst_id (x y : ℚ) (t : String) (st : State) :
    ((createNote x y t st).1).id = noteIdFor (st.noteCounter + 1) := rfl

lemma createNote_fst_color (x y : ℚ) (t : String) (st : State) :
    ((createNote x y t st).1).color
      = NOTE_COLORS.getD ((st.noteCounter + 1) % NOTE_COLORS.length) "" := rfl

/-- Characterization of a creation sequence: the counter advances by one per
call and the note list is the original list extended by the built notes in
order. -/
lemma createNoteSeq_spec (xs ys : ℕ → ℚ) (ts : ℕ → String) (s : State) :
    ∀ n, (createNoteSeq xs ys ts s n).noteCounter = s.noteCounter + n ∧
      (createNoteSeq xs ys ts s n).notes =
        s.notes ++ (List.range n).map (fun i =>
          (createNote (xs i) (ys i) (ts i)
            { s with noteCounter := s.noteCounter + i }).1) := by
  intro n
  induction n with
  | zero => simp [createNoteSeq]
  | succ n ih =>
    obtain ⟨ihc, ihn⟩ := ih
    constructor
    · show (createNote (xs n) (ys n) (ts n)
          (createNoteSeq xs ys ts s n)).2.noteCounter = _
      rw [createNote_snd_noteCounter, ihc]
      omega
    · show (createNote (xs n) (ys n) (ts n)
          (createNoteSeq xs ys ts s n)).2.notes = _
      rw [createNote_snd_notes, ihn,
        createNote_fst (xs n) (ys n) (ts n) (createNoteSeq xs ys ts s n)
          { s with noteCounter := s.noteCounter + n } ihc,
        List.range_succ, List.map_append, List.map_cons, List.map_nil,
        List.append_assoc]

/-- C9 counterexample: the very first note ever created is assigned color
`#8b5cf6` (violet, palette entry 1), not `#6366f1` (indigo, palette
entry 0) — `createNote` indexes the palette with the already incremented
counter. -/
theorem first_note_color_counterexample :
    ((createNote 0 0 "New Note" initState).1).id = "note_1" ∧
    ((createNote 0 0 "New Note" initState).1).color = "#8b5cf6" ∧
    "#8b5cf6" ≠ "#6366f1" := by
  refine ⟨by decide, by decide, by decide⟩

/-- C9 (amended): the k-th note ever created is assigned id `note_<k>` and
palette entry `k % 8` (0-indexed): the first note receives violet
(`NOTE_COLORS[1]`), the eighth indigo (`NOTE_COLORS[0]`), the ninth violet
again — the palette is cycled with period 8 but starting at entry 1, not
entry 0. -/
theorem kth_note_id_and_color (xs ys : ℕ → ℚ) (ts : ℕ → String)
    (n k : ℕ) (hk1 : 1 ≤ k) (hkn : k ≤ n) :
    ∃ note : Note,
      (createNoteSeq xs ys ts initState n).notes[k - 1]? = some note ∧
      note.id = noteIdFor k ∧
      note.color = NOTE_COLORS.getD (k % NOTE_COLORS.length) "" := by
  obtain ⟨-, hn⟩ := createNoteSeq_spec xs ys ts initState n
  have hlt : k - 1 < n := by omega
  have hcount : ({ initState with
      noteCounter := initState.noteCounter + (k - 1) } : State).noteCounter + 1 = k := by
    simp only [initState]
    omega
  refine ⟨(createNote (xs (k - 1)) (ys (k - 1)) (ts (k - 1))
    { initState with noteCounter := initState.noteCounter + (k - 1) }).1, ?_, ?_, ?_⟩
  · rw [hn]
    show (List.map _ (List.range n))[k - 1]? = _
    simp [List.getElem?_map, List.getElem?_range, hlt]
  · rw [createNote_fst_id, hcount]
  · rw [createNote_fst_color, hcount]

/-- C9 witness: among nine notes created in a row, the ninth exists, has id
`note_9` and color `NOTE_COLORS[9 % 8] = NOTE_COLORS[1]` (violet). -/
theorem kth_note_id_and_color_witness :
    ∃ note : Note,
      (createNoteSeq (fun _ => 0) (fun _ => 0) (fun _ => "New Note")
          initState 9).notes[9 - 1]? = some note ∧
      note.id = noteIdFor 9 ∧
      note.color = NOTE_COLORS.getD (9 % NOTE_COLORS.length) "" :=
  kth_note_id_and_color (fun _ => 0) (fun _ => 0) (fun _ => "New Note") 9 9
    (by decide) (by decide)

-- --- C7: JSON export shape ---

/-- C7: `exportProjectJSON` always returns the success indicator `true`; the
document it builds has `version = "1.0"`, a workspace record carrying the
current zoom and offsets, a note record list that is exactly the per-note
flattening of `workspace.notes` (one record per note, in order, each with
precisely the `NoteRecord` fields and no dependence on the `selected`
flag), and a link record list with one `{id, from, to}` record per link. -/
theorem exportProjectJSON_shape (ts : String) (s : State) :
    (exportProjectJSON ts s).1 = true ∧
    (exportProjectJSON ts s).2.version = "1.0" ∧
    (exportProjectJSON ts s).2.timestamp = ts ∧
    (exportProjectJSON ts s).2.workspace
      = { zoom := s.zoom, offsetX := s.offsetX, offsetY := s.offsetY } ∧
    (exportProjectJSON ts s).2.notes = s.notes.map noteRecordOf ∧
    (exportProjectJSON ts s).2.notes.length = s.notes.length ∧
    (exportProjectJSON ts s).2.links = s.links.map linkRecordOf ∧
    (exportProjectJSON ts s).2.links.length = s.links.length ∧
    (∀ (n : Note) (b : Bool), noteRecordOf { n with selected := b } = noteRecordOf n) := by
  refine ⟨rfl, rfl, rfl, rfl, rfl, by simp [exportProjectJSON], rfl,
    by simp [exportProjectJSON], fun n b => rfl⟩

-- --- C8: per-hand reset on missing landmarks ---

/-- C8 counterexample: a hand state whose smoothed cursor is at (5, 5) with
`pinchStartTime = 7`; after a frame with no landmark list, the cursor points
and `pinchStartTime` are NOT back at their neutral initial values (0, 0) / 0
— `resetOneHand` never touches them. -/
def staleHand : HandState :=
  { createHandState with
    smoothCursor := (5, 5)
    prevSmoothCursor := (4, 4)
    cursor := (6, 6)
    pinchStartTime := 7 }

theorem processOneHand_reset_counterexample :
    (processOneHand none 640 480 0 staleHand).smoothCursor ≠ (0, 0) ∧
    (processOneHand none 640 480 0 staleHand).prevSmoothCursor ≠ (0, 0) ∧
    (processOneHand none 640 480 0 staleHand).cursor ≠ (0, 0) ∧
    (processOneHand none 640 480 0 staleHand).pinchStartTime ≠ 0 := by
  refine ⟨by decide, by decide, by decide, by decide⟩

/-- C8 (amended): on a frame with no landmark list or fewer than 21
landmarks, the hand's state is reset to not-detected — `detected` false,
`landmarks` absent, all pinch flags false, gesture mode/candidates `none`
with candidate frame count 0 — while `pinchStartTime` and the `cursor`,
`smoothCursor` and `prevSmoothCursor` points keep their previous values
(they are not reset to neutral). -/
theorem processOneHand_resets_on_missing (s : HandState)
    (lm : Option (List Landmark)) (cw ch now : ℚ)
    (h : lm = none ∨ ∃ l, lm = some l ∧ l.length < 21) :
    processOneHand lm cw ch now s =
      { s with
        detected := false
        landmarks := none
        isPinching := false
        pinchConfirmed := false
        pinchJustConfirmed := false
        pinchJustReleased := false
        gestureMode := Gesture.none
        prevGestureMode := Gesture.none
        gestureCandidate := Gesture.none
        gestureCandidateFrames := 0 } ∧
    (processOneHand lm cw ch now s).cursor = s.cursor ∧
    (processOneHand lm cw ch now s).smoothCursor = s.smoothCursor ∧
    (processOneHand lm cw ch now s).prevSmoothCursor = s.prevSmoothCursor ∧
    (processOneHand lm cw ch now s).pinchStartTime = s.pinchStartTime := by
  have he : processOneHand lm cw ch now s = resetOneHand s := by
    rcases h with h | ⟨l, hl, hlen⟩
    · rw [h]; rfl
    · rw [hl]
      simp only [processOneHand]
      rw [if_pos hlen]
  rw [he]
  exact ⟨rfl, rfl, rfl, rfl, rfl⟩

/-- C8 witness: the reset shape evaluated at the concrete stale hand state
with a missing landmark list. -/
theorem processOneHand_resets_on_missing_witness :
    processOneHand none 640 480 0 staleHand =
      { staleHand with
        detected := false
        landmarks := none
        isPinching := false
        pinchConfirmed := false
        pinchJustConfirmed := false
        pinchJustReleased := false
        gestureMode := Gesture.none
        prevGestureMode := Gesture.none
        gestureCandidate := Gesture.none
        gestureCandidateFrames := 0 } ∧
    (processOneHand none 640 480 0 staleHand).smoothCursor = staleHand.smoothCursor :=
  ⟨(processOneHand_resets_on_missing staleHand none 640 480 0 (Or.inl rfl)).1,
   (processOneHand_resets_on_missing staleHand none 640 480 0 (Or.inl rfl)).2.2.1⟩

-- --- C5: the selected-flag / selection-set invariant ---

/-- The claimed invariant: every note's `selected` flag equals membership of
its id in `selection.selectedNoteIds`. -/
def SelInv (s : State) : Prop :=
  ∀ n ∈ s.notes, n.selected = true ↔ n.id ∈ s.selectedNoteIds

/-- A state whose flags were just recomputed from membership satisfies the
invariant. -/
lemma SelInv_of_sync (s : State) :
    SelInv { s with notes := s.notes.map fun n =>
      { n with selected := decide (n.id ∈ s.selectedNoteIds) } } := by
  intro n hn
  simp only [List.mem_map] at hn
  obtain ⟨m, _, rfl⟩ := hn
  simp [decide_eq_true_iff]

/-- `clearSelection` establishes the invariant outright. -/
lemma SelInv_clearSelection (s : State) : SelInv (clearSelection s) := by
  intro n hn
  simp only [clearSelection, List.mem_map] at hn
  obtain ⟨m, _, rfl⟩ := hn
  simp [clearSelection]

/-- The invariant only looks at the notes and the selection list. -/
lemma SelInv_congr (s s' : State) (h1 : s'.notes = s.notes)
    (h2 : s'.selectedNoteIds = s.selectedNoteIds) (h : SelInv s) : SelInv s' := by
  intro n hn
  rw [h1] at hn
  rw [h2]
  exact h n hn

/-- `mutateFirst` with a flag- and id-preserving mutation keeps the
invariant pointwise. -/
lemma mutateFirst_preserve (p : Note → Bool) (f : Note → Note)
    (hf : ∀ m, (f m).selected = m.selected ∧ (f m).id = m.id)
    (sel : List String) :
    ∀ l : List Note, (∀ n ∈ l, n.selected = true ↔ n.id ∈ sel) →
      ∀ n ∈ mutateFirst p f l, n.selected = true ↔ n.id ∈ sel := by
  intro l
  induction l with
  | nil => intro _ n hn; simp [mutateFirst] at hn
  | cons m rest ih =>
    intro hinv n hn
    simp only [mutateFirst] at hn
    split_ifs at hn with hp
    · rcases List.mem_cons.mp hn with rfl | hmem
      · rw [(hf m).1, (hf m).2]
        exact hinv m (List.mem_cons_self m rest)
      · exact hinv n (List.mem_cons_of_mem m hmem)
    · rcases List.mem_cons.mp hn with rfl | hmem
      · exact hinv n (List.mem_cons_self n rest)
      · exact ih (fun n hn => hinv n (List.mem_cons_of_mem m hn)) n hmem

/-- The deselect mutation against the filtered selection list: needs
pairwise-distinct note ids since only the first match is mutated. -/
lemma deselect_aux (id : String) (sel : List String) :
    ∀ l : List Note, (l.map Note.id).Nodup →
      (∀ n ∈ l, n.selected = true ↔ n.id ∈ sel) →
      ∀ n ∈ mutateFirst (fun n => n.id = id)
        (fun n => { n with selected := false }) l,
        n.selected = true ↔ n.id ∈ sel.filter fun i => i ≠ id := by
  intro l
  induction l with
  | nil => intro _ _ n hn; simp [mutateFirst] at hn
  | cons m rest ih =>
    intro hnodup hinv n hn
    simp only [List.map_cons, List.nodup_cons] at hnodup
    simp only [mutateFirst] at hn
    split_ifs at hn with hp
    · simp only [decide_eq_true_eq] at hp
      rcases List.mem_cons.mp hn with rfl | hmem
      · simp [hp, List.mem_filter]
      · have hne : n.id ≠ id := by
          intro hcontra
          apply hnodup.1
          rw [hp, ← hcontra]
          exact List.mem_map_of_mem Note.id hmem
        rw [List.mem_filter]
        simp only [hne, decide_not, decide_eq_true_eq, not_false_eq_true,
          decide_eq_false_iff_not, Bool.not_eq_false', decide_False,
          Bool.not_false, and_true]
        exact hinv n (List.mem_cons_of_mem m hmem)
    · simp only [decide_eq_true_eq] at hp
      rcases List.mem_cons.mp hn with rfl | hmem
      · rw [List.mem_filter]
        simp only [hp, decide_not, decide_eq_true_eq, not_false_eq_true,
          decide_eq_false_iff_not, Bool.not_eq_false', decide_False,
          Bool.not_false, and_true]
        exact hinv n (List.mem_cons_self n rest)
      · exact ih hnodup.2 (fun x hx => hinv x (List.mem_cons_of_mem m hx)) n hmem

/-- C5 counterexample: select the id `note_1` while no note exists, then
create a note (which receives exactly that id): the new note's `selected`
flag is `false` although its id is a member of `selectedNoteIds`, so
`createNote` does not preserve the claimed invariant on this reachable
call sequence. -/
theorem selected_flag_sync_counterexample :
    ¬ SelInv (createNote 0 0 "New Note" (selectNote "note_1" false initState)).2 := by
  unfold SelInv
  decide

/-- C5 (amended): the flags-equal-membership invariant holds initially and
is preserved by every workspace operation, with two provisos that hold in
every state the application itself reaches: `createNote` preserves it
provided the id it is about to assign is not already in `selectedNoteIds`,
and `deselectNote` preserves it provided note ids are pairwise distinct.
`selectNote`, `clearSelection` and `deleteSelectedNotes` (re)establish it
unconditionally. -/
theorem selected_flag_sync :
    SelInv initState ∧
    (∀ (s : State) (x y : ℚ) (t : String), SelInv s →
      noteIdFor (s.noteCounter + 1) ∉ s.selectedNoteIds →
      SelInv (createNote x y t s).2) ∧
    (∀ (s : State) (id : String), SelInv s → SelInv (deleteNote id s)) ∧
    (∀ s : State, SelInv (deleteSelectedNotes s)) ∧
    (∀ (s : State) (id : String) (add : Bool), SelInv (selectNote id add s)) ∧
    (∀ (s : State) (id : String), SelInv s → (s.notes.map Note.id).Nodup →
      SelInv (deselectNote id s)) ∧
    (∀ s : State, SelInv (clearSelection s)) ∧
    (∀ (s : State) (id : String) (dx dy : ℚ), SelInv s →
      SelInv (moveNote id dx dy s)) ∧
    (∀ (s : State) (dx dy : ℚ), SelInv s → SelInv (moveSelectedNotes dx dy s)) ∧
    (∀ (s : State) (id t : String), SelInv s → SelInv (updateNoteText id t s)) ∧
    (∀ (s : State) (a b : String), SelInv s → SelInv (createLink a b s).2) ∧
    (∀ (s : State) (id : String), SelInv s → SelInv (deleteLink id s)) ∧
    (∀ (s : State) (id : String), SelInv s → SelInv (deleteLinksForNote id s)) := by
  refine ⟨?_, ?_, ?_, ?_, ?_, ?_, ?_, ?_, ?_, ?_, ?_, ?_, ?_⟩
  · intro n hn
    simp [initState] at hn
  · intro s x y t hInv hfresh n hn
    simp only [createNote, List.mem_append, List.mem_singleton] at hn
    rcases hn with hn | rfl
    · exact hInv n hn
    · simp only [Bool.false_eq_true, false_iff]
      exact hfresh
  · intro s id hInv n hn
    simp only [deleteNote, deleteLinksForNote, List.mem_filter,
      decide_eq_true_eq] at hn
    rw [show (deleteNote id s).selectedNoteIds
        = s.selectedNoteIds.filter (fun sid => sid ≠ id) from rfl,
      List.mem_filter]
    simp only [hn.2, decide_not, decide_eq_true_eq, not_false_eq_true,
      decide_eq_false_iff_not, Bool.not_eq_false', decide_False,
      Bool.not_false, and_true]
    exact hInv n hn.1
  · intro s
    exact SelInv_clearSelection _
  · intro s id add
    exact SelInv_of_sync _
  · intro s id hInv hnodup n hn
    exact deselect_aux id s.selectedNoteIds s.notes hnodup hInv n hn
  · intro s
    exact SelInv_clearSelection s
  · intro s id dx dy hInv n hn
    simp only [moveNote] at hn ⊢
    refine mutateFirst_preserve _ _ ?_ s.selectedNoteIds s.notes hInv n hn
    exact fun m => ⟨rfl, rfl⟩
  · intro s dx dy hInv
    unfold moveSelectedNotes
    generalize s.selectedNoteIds = ids
    induction ids generalizing s with
    | nil => exact hInv
    | cons i ids ih =>
      refine ih (moveNote i dx dy s) ?_
      intro n hn
      simp only [moveNote] at hn ⊢
      refine mutateFirst_preserve _ _ ?_ s.selectedNoteIds s.notes hInv n hn
      exact fun m => ⟨rfl, rfl⟩
  · intro s id t hInv n hn
    simp only [updateNoteText] at hn ⊢
    refine mutateFirst_preserve _ _ ?_ s.selectedNoteIds s.notes hInv n hn
    exact fun m => ⟨rfl, rfl⟩
  · intro s a b hInv
    refine SelInv_congr s _ ?_ ?_ hInv <;>
      · rw [createLink_def]
        split_ifs <;> rfl
  · intro s id hInv
    exact SelInv_congr s _ rfl rfl hInv
  · intro s id hInv
    exact SelInv_congr s _ rfl rfl hInv

/-- C5 witness: the preservation components applied at concrete states —
creating the first note in the empty selection, and deselecting note A in
the two-note workspace. -/
theorem selected_flag_sync_witness :
    SelInv (createNote 0 0 "New Note" initState).2 ∧
    SelInv (deselectNote "note_1" pairState) :=
  ⟨selected_flag_sync.2.1 initState 0 0 "New Note" selected_flag_sync.1
      (by decide),
   selected_flag_sync.2.2.2.2.2.1 pairState "note_1"
      (by unfold SelInv; decide) (by decide)⟩

-- --- C6: pinch debounce / hysteresis ---

lemma engage_lt_release_sq : PINCH_THRESHOLD ^ 2 ≤ RELEASE_THRESHOLD ^ 2 := by
  norm_num [PINCH_THRESHOLD, RELEASE_THRESHOLD]

lemma debounce_pos : (0 : ℚ) < PINCH_DEBOUNCE_MS := by
  norm_num [PINCH_DEBOUNCE_MS]

/-- An engaging frame (not pinching, distance below the engage threshold):
the machine records the pinch start and stays unconfirmed, because zero
milliseconds have elapsed. -/
lemma pinchStep_engage_fields (s : HandState) (now d2 : ℚ)
    (hP : s.isPinching = false) (hd : d2 < PINCH_THRESHOLD ^ 2) :
    (pinchStep now d2 s).isPinching = true ∧
    (pinchStep now d2 s).pinchStartTime = now ∧
    (pinchStep now d2 s).pinchConfirmed = false ∧
    (pinchStep now d2 s).pinchJustConfirmed = false := by
  simp only [pinchStep]
  split_ifs with h1 h2 h3 h4 h5 h6 h7 h8 <;>
    first
      | exact absurd ⟨hP, hd⟩ h1
      | exact absurd ⟨rfl, rfl⟩ h2
      | exact ⟨rfl, rfl, rfl, rfl⟩
      | (have h3' : now - now ≥ PINCH_DEBOUNCE_MS := h3
         norm_num [PINCH_DEBOUNCE_MS] at h3')

/-- A holding frame (already pinching, distance not above the release
threshold): the start time is kept, the machine confirms exactly when the
debounce time has elapsed, and the just-confirmed flag fires exactly on the
frame that first confirms. -/
lemma pinchStep_hold_fields (s : HandState) (now d2 : ℚ)
    (hP : s.isPinching = true) (hd : ¬ d2 > RELEASE_THRESHOLD ^ 2) :
    (pinchStep now d2 s).isPinching = true ∧
    (pinchStep now d2 s).pinchStartTime = s.pinchStartTime ∧
    (pinchStep now d2 s).pinchConfirmed
      = (s.pinchConfirmed || decide (now - s.pinchStartTime ≥ PINCH_DEBOUNCE_MS)) ∧
    (pinchStep now d2 s).pinchJustConfirmed
      = (!s.pinchConfirmed && decide (now - s.pinchStartTime ≥ PINCH_DEBOUNCE_MS)) := by
  simp only [pinchStep]
  split_ifs with h1 h2 h3 h4 h5 h6 h7 h8 <;>
    first
      | exact absurd h1.1 (by simp [hP])
      | exact absurd h4.2 hd
      | (have hc : s.pinchConfirmed = false := h7.2
         have h8' : now - s.pinchStartTime ≥ PINCH_DEBOUNCE_MS := h8
         exact ⟨hP, rfl, by simp [hc, h8'], by simp [hc, h8']⟩)
      | (have hc : s.pinchConfirmed = false := h7.2
         have h8' : ¬ now - s.pinchStartTime ≥ PINCH_DEBOUNCE_MS := h8
         exact ⟨hP, rfl, by simp [hc, h8'], by simp [hc, h8']⟩)
      | (have hc : s.pinchConfirmed = true := by
           rcases Bool.eq_false_or_eq_true s.pinchConfirmed with hb | hb
           · exact hb
           · exact absurd ⟨hP, hb⟩ h7
         exact ⟨hP, rfl, by simp [hc], by simp [hc]⟩)

/-- One frame before the debounce deadline never confirms, whatever the
distance does, and keeps any recorded start time at or after `t0`. -/
lemma pinchStep_no_confirm (s : HandState) (now d2 t0 : ℚ)
    (hC : s.pinchConfirmed = false)
    (hstart : s.isPinching = true → t0 ≤ s.pinchStartTime)
    (ht0 : t0 ≤ now) (hnow : now < t0 + PINCH_DEBOUNCE_MS) :
    (pinchStep now d2 s).pinchConfirmed = false ∧
    (pinchStep now d2 s).pinchJustConfirmed = false ∧
    ((pinchStep now d2 s).isPinching = true →
      t0 ≤ (pinchStep now d2 s).pinchStartTime) := by
  simp only [pinchStep]
  split_ifs with h1 h2 h3 h4 h5 h6 h7 h8
  · have h3' : now - now ≥ PINCH_DEBOUNCE_MS := h3
    norm_num [PINCH_DEBOUNCE_MS] at h3'
  · exact ⟨rfl, rfl, fun _ => ht0⟩
  · exact absurd ⟨rfl, rfl⟩ h2
  · exact h5.1.elim
  · exact h5.1.elim
  · exact ⟨rfl, rfl, fun h => h.elim⟩
  · exfalso
    have hs : t0 ≤ s.pinchStartTime := hstart h7.1
    have h8' : now - s.pinchStartTime ≥ PINCH_DEBOUNCE_MS := h8
    linarith
  · exact ⟨hC, rfl, hstart⟩
  · exact ⟨hC, rfl, hstart⟩

/-- Part A of C6 over a whole run: while every frame of the episode happens
before `t 0 + 120 ms`, the machine never confirms. -/
lemma pinchRun_no_confirm (s0 : HandState) (t d2 : ℕ → ℚ) (n : ℕ)
    (hmono : ∀ i j, i ≤ j → t i ≤ t j)
    (hP : s0.isPinching = false) (hC : s0.pinchConfirmed = false)
    (hJ : s0.pinchJustConfirmed = false)
    (htime : ∀ i, i ≤ n → t i < t 0 + PINCH_DEBOUNCE_MS) :
    ∀ i, i ≤ n + 1 →
      (pinchRun s0 t d2 i).pinchConfirmed = false ∧
      (pinchRun s0 t d2 i).pinchJustConfirmed = false := by
  have key : ∀ i, i ≤ n + 1 →
      (pinchRun s0 t d2 i).pinchConfirmed = false ∧
      (pinchRun s0 t d2 i).pinchJustConfirmed = false ∧
      ((pinchRun s0 t d2 i).isPinching = true →
        t 0 ≤ (pinchRun s0 t d2 i).pinchStartTime) := by
    intro i
    induction i with
    | zero =>
      intro _
      exact ⟨hC, hJ, fun h => absurd (hP.symm.trans h) Bool.false_ne_true⟩
    | succ i ih =>
      intro hle
      obtain ⟨ih1, -, ih3⟩ := ih (by omega)
      exact pinchStep_no_confirm (pinchRun s0 t d2 i) (t i) (d2 i) (t 0) ih1 ih3
        (hmono 0 i (by omega)) (htime i (by omega))
  intro i hi
  exact ⟨(key i hi).1, (key i hi).2.1⟩

/-- Part B of C6 over a whole run: with the distance held under the engage
threshold on every frame, after frame `i` the machine is pinching with start
time `t 0`, is confirmed exactly when the debounce time has elapsed, and the
just-confirmed flag is set exactly on the first frame past the deadline. -/
lemma pinchRun_held_spec (s0 : HandState) (t d2 : ℕ → ℚ)
    (hmono : ∀ i j, i ≤ j → t i ≤ t j)
    (hP : s0.isPinching = false)
    (hd : ∀ i, d2 i < PINCH_THRESHOLD ^ 2) :
    ∀ i, (pinchRun s0 t d2 (i + 1)).isPinching = true ∧
      (pinchRun s0 t d2 (i + 1)).pinchStartTime = t 0 ∧
      ((pinchRun s0 t d2 (i + 1)).pinchConfirmed = true ↔
        t 0 + PINCH_DEBOUNCE_MS ≤ t i) ∧
      ((pinchRun s0 t d2 (i + 1)).pinchJustConfirmed = true ↔
        (t 0 + PINCH_DEBOUNCE_MS ≤ t i ∧
          ∀ j < i, t j < t 0 + PINCH_DEBOUNCE_MS)) := by
  have hrel : ∀ i, ¬ d2 i > RELEASE_THRESHOLD ^ 2 := by
    intro i h
    have := engage_lt_release_sq
    have := hd i
    linarith
  intro i
  induction i with
  | zero =>
    obtain ⟨e1, e2, e3, e4⟩ :=
      pinchStep_engage_fields s0 (t 0) (d2 0) hP (hd 0)
    have hno : ¬ t 0 + PINCH_DEBOUNCE_MS ≤ t 0 := by
      have := debounce_pos
      intro h
      linarith
    refine ⟨e1, e2, ?_, ?_⟩
    · rw [show pinchRun s0 t d2 1 = pinchStep (t 0) (d2 0) s0 from rfl, e3]
      exact ⟨fun h => absurd h Bool.false_ne_true, fun h => absurd h hno⟩
    · rw [show pinchRun s0 t d2 1 = pinchStep (t 0) (d2 0) s0 from rfl, e4]
      exact ⟨fun h => absurd h Bool.false_ne_true, fun h => absurd h.1 hno⟩
  | succ i ih =>
    obtain ⟨ihP, ihS, ihC, ihJ⟩ := ih
    obtain ⟨e1, e2, e3, e4⟩ :=
      pinchStep_hold_fields (pinchRun s0 t d2 (i + 1)) (t (i + 1)) (d2 (i + 1))
        ihP (hrel (i + 1))
    have hiff : (t (i + 1) - (pinchRun s0 t d2 (i + 1)).pinchStartTime
        ≥ PINCH_DEBOUNCE_MS) ↔ t 0 + PINCH_DEBOUNCE_MS ≤ t (i + 1) := by
      rw [ihS]
      constructor <;> intro h <;> linarith
    have hstep : pinchRun s0 t d2 (i + 1 + 1)
        = pinchStep (t (i + 1)) (d2 (i + 1)) (pinchRun s0 t d2 (i + 1)) := rfl
    refine ⟨e1, by rw [hstep, e2, ihS], ?_, ?_⟩
    · rw [hstep, e3]
      simp only [Bool.or_eq_true, decide_eq_true_eq, ihC, hiff]
      constructor
      · rintro (h | h)
        · exact le_trans h (hmono i (i + 1) (by omega))
        · exact h
      · exact fun h => Or.inr h
    · rw [hstep, e4]
      simp only [Bool.and_eq_true, Bool.not_eq_true', decide_eq_true_eq, hiff]
      constructor
      · rintro ⟨hnc, hlate⟩
        have hnot : ¬ t 0 + PINCH_DEBOUNCE_MS ≤ t i := by
          intro h
          exact Bool.false_ne_true (hnc.symm.trans (ihC.mpr h))
        refine ⟨hlate, ?_⟩
        intro j hj
        exact lt_of_le_of_lt (hmono j i (by omega)) (lt_of_not_le hnot)
      · rintro ⟨hlate, hall⟩
        have hnot : ¬ t 0 + PINCH_DEBOUNCE_MS ≤ t i :=
          fun h => absurd (hall i (by omega)) (not_lt.mpr h)
        refine ⟨?_, hlate⟩
        rcases Bool.eq_false_or_eq_true (pinchRun s0 t d2 (i + 1)).pinchConfirmed
          with hb | hb
        · exact absurd (ihC.mp hb) hnot
        · exact hb

/-- C6: feed one hand's pinch state machine a per-frame sequence of
thumb–index distances `d i` at times `t i` (the machine compares the
squared distance against the squared thresholds, which is equivalent for
non-negative distances). (a) If the distance drops below 0.06 at frame 0
and rises above 0.09 at some frame `n` while every frame of the episode
happens before `t 0 + 120` ms, then `pinchConfirmed` and
`pinchJustConfirmed` are never set during the episode. (b) If the distance
is held below 0.06 on every frame, then after frame `i` the machine is
confirmed exactly when 120 ms have elapsed since `t 0`, and
`pinchJustConfirmed` is set exactly on the first frame at which 120 ms have
elapsed — hence on exactly one frame of the pinch. -/
theorem pinch_debounce_and_hysteresis :
    (∀ (s0 : HandState) (t d : ℕ → ℚ) (n : ℕ),
      (∀ i j, i ≤ j → t i ≤ t j) →
      s0.isPinching = false → s0.pinchConfirmed = false →
      s0.pinchJustConfirmed = false →
      (∀ i, 0 ≤ d i) → d 0 < PINCH_THRESHOLD → RELEASE_THRESHOLD < d n →
      (∀ i, i ≤ n → t i < t 0 + PINCH_DEBOUNCE_MS) →
      ∀ i, i ≤ n + 1 →
        (pinchRun s0 t (fun j => d j ^ 2) i).pinchConfirmed = false ∧
        (pinchRun s0 t (fun j => d j ^ 2) i).pinchJustConfirmed = false) ∧
    (∀ (s0 : HandState) (t d : ℕ → ℚ),
      (∀ i j, i ≤ j → t i ≤ t j) →
      s0.isPinching = false →
      (∀ i, 0 ≤ d i) → (∀ i, d i < PINCH_THRESHOLD) →
      ∀ i, ((pinchRun s0 t (fun j => d j ^ 2) (i + 1)).pinchConfirmed = true ↔
              t 0 + PINCH_DEBOUNCE_MS ≤ t i) ∧
        ((pinchRun s0 t (fun j => d j ^ 2) (i + 1)).pinchJustConfirmed = true ↔
          (t 0 + PINCH_DEBOUNCE_MS ≤ t i ∧
            ∀ j < i, t j < t 0 + PINCH_DEBOUNCE_MS))) := by
  constructor
  · intro s0 t d n hmono hP hC hJ _ _ _ htime
    exact pinchRun_no_confirm s0 t (fun j => d j ^ 2) n hmono hP hC hJ htime
  · intro s0 t d hmono hP hd0 hdlt i
    have hdsq : ∀ j, (fun j => d j ^ 2) j < PINCH_THRESHOLD ^ 2 := by
      intro j
      exact pow_lt_pow_left₀ (hdlt j) (hd0 j) (by norm_num)
    obtain ⟨-, -, h3, h4⟩ :=
      pinchRun_held_spec s0 t (fun j => d j ^ 2) hmono hP hdsq i
    exact ⟨h3, h4⟩

/-- C6 witness: a short pinch (30 ms frames, released at frame 3 before
120 ms elapse) never confirms, while a held pinch (50 ms frames) has
`pinchJustConfirmed` set on the frame at 150 ms. -/
theorem pinch_debounce_and_hysteresis_witness :
    (pinchRun createHandState (fun i => (i : ℚ) * 30)
      (fun j => ((fun i => if i = 3 then (1/10 : ℚ) else 1/20) j) ^ 2)
      4).pinchConfirmed = false ∧
    (pinchRun createHandState (fun i => (i : ℚ) * 50)
      (fun j => ((fun _ => (1/20 : ℚ)) j) ^ 2) 4).pinchJustConfirmed = true := by
  constructor
  · refine (pinch_debounce_and_hysteresis.1 createHandState (fun i => (i : ℚ) * 30)
      (fun i => if i = 3 then (1/10 : ℚ) else 1/20) 3
      ?_ rfl rfl rfl ?_ ?_ ?_ ?_ 4 (by omega)).1
    · intro i j h
      exact mul_le_mul_of_nonneg_right (by exact_mod_cast h) (by norm_num)
    · intro i
      dsimp only
      split_ifs <;> norm_num
    · norm_num [PINCH_THRESHOLD]
    · norm_num [RELEASE_THRESHOLD]
    · intro i hi
      interval_cases i <;> norm_num [PINCH_DEBOUNCE_MS]
  · refine ((pinch_debounce_and_hysteresis.2 createHandState (fun i => (i : ℚ) * 50)
      (fun _ => (1/20 : ℚ)) ?_ rfl ?_ ?_ 3).2).mpr ⟨?_, ?_⟩
    · intro i j h
      exact mul_le_mul_of_nonneg_right (by exact_mod_cast h) (by norm_num)
    · intro i
      norm_num
    · intro i
      norm_num [PINCH_THRESHOLD]
    · norm_num [PINCH_DEBOUNCE_MS]
    · intro j hj
      interval_cases j <;> norm_num [PINCH_DEBOUNCE_MS]

end VisualNote
